import Mathlib

/-!
Verification of the oxidizer entity/persistence layer against its
specification.

The development shallowly embeds the code generated by
`dboom-entity-macro/src/entity_builder.rs` (the per-entity `save`,
`delete`, `from_row`, `find`, `first` and `create_migration` operations)
and the connection/migration layer of `oxidizer/src/db/db.rs`
(`migrate_tables`, `migrate`).

Modelling conventions:
* Machine integers become `Int`/`Nat`; the primary-key type's
  `Default::default()` is the integer default `0`.
* Column values are modelled uniformly as `Int`; a database row is an
  association list from column name to value.
* The asynchronous query executor is an oracle (`DB`): a pair of
  functions giving, for each statement text and positional parameter
  list, either an error or a result.  `&mut self` mutation is made
  explicit: `save`/`delete` return the final state of the record
  alongside their `Result`.
* The descriptor accessors of `props.rs`, the `Migration` data type of
  `migration.rs` and the `Error` enum of `error.rs` are not part of the
  repository's staged sources; they are modelled from the specification
  (each such definition carries a doc comment saying so).
-/

namespace Oxidizer

/-- Error type of the db layer.  Modelled from the spec: `error.rs` is not
among the staged sources; the constructors are those `db.rs` applies
(`OpensslError`, `PostgresError`, `MobcError`, `RefineryError`) plus
`Other`, the variant `entity_builder.rs` synthesizes for an INSERT that
returns no row (the spec's DataIntegrityError).  Underlying driver errors
are abstracted as numeric codes. -/
inductive Error where
  | OpensslError : Nat → Error
  | PostgresError : Nat → Error
  | MobcError : Nat → Error
  | RefineryError : Nat → Error
  | Other : Error
deriving DecidableEq, Repr

/-- A database row: an association list from column name to (uniformly
modelled) value, as handed to the generated `from_row`. -/
def Row : Type := List (String × Int)

/-- Column lookup by name, the model of `row.get::<&str, T>(name)`.  A
column absent from the row is modelled as the default value `0` (the
source would panic there; no claim exercises a missing column). -/
def rowGet (r : Row) (name : String) : Int :=
  match r.find? (fun c => c.1 == name) with
  | some c => c.2
  | none => 0

/-- The query-executor oracle, standing for `dboom::db::DB` as the
generated code consumes it: `query` runs a statement and yields the
resulting rows, `execute` runs one and yields the affected-row count
(`db.rs` wraps driver failures into `Error` before the generated code
sees them). -/
structure DB where
  query : String → List Int → Except Error (List Row)
  execute : String → List Int → Except Error Nat

/-- The pure alias `DB::create` of `db.rs`: it forwards to `execute`. -/
def DB.create (db : DB) (q : String) (params : List Int) : Except Error Nat :=
  db.execute q params

/-- A field of an entity descriptor: name, semantic (Rust) type, optional
custom database type, and the primary-key / ignored flags.  Modelled from
the spec's data model (§3); the extraction code `props.rs` is not among
the staged sources. -/
structure Field where
  name : String
  ty : String
  customType : Option String
  isPrimary : Bool
  isIgnored : Bool
deriving DecidableEq, Repr

/-- An entity descriptor (`Props` in the source): type name, table name
and the declared fields in declaration order.  Modelled from the spec:
`props.rs` is not among the staged sources. -/
structure Props where
  name : String
  tableName : String
  fields : List Field
deriving DecidableEq, Repr

/-- Fields that are neither ignored nor the primary key, in declaration
order.  Modelled from the spec: `get_fields_plain_names` and friends live
in the missing `props.rs`; per §4.2 the "plain" getters yield the
non-ignored, non-primary fields. -/
def fields_plain (p : Props) : List Field :=
  p.fields.filter (fun f => !f.isPrimary && !f.isIgnored)

/-- Names of the plain fields, in declaration order. -/
def fields_plain_names (p : Props) : List String :=
  (fields_plain p).map Field.name

/-- Fields that are not ignored (the primary key included), in
declaration order.  Modelled from the spec: the "all" getters of the
missing `props.rs`; §3 requires that ignored fields never appear in
generated SQL or migrations, so "all" here means all persisted fields. -/
def fields_all (p : Props) : List Field :=
  p.fields.filter (fun f => !f.isIgnored)

/-- Model of `get_primary_key_field`: the first field flagged as primary
key (the descriptor check enforces there is exactly one). -/
def get_primary_key_field (p : Props) : Option Field :=
  p.fields.find? (fun f => f.isPrimary)

/-- Name of the primary-key field; `""` when the descriptor has none
(`entity_builder.rs` unwraps, and `props.check()` rejects such
descriptors before generation). -/
def primaryKeyName (p : Props) : String :=
  match get_primary_key_field p with
  | some f => f.name
  | none => ""

/-- Comma-and-space separated concatenation, as `stringify!` renders a
punctuated token list. -/
def joinComma : List String → String
  | [] => ""
  | [s] => s
  | s :: rest => s ++ ", " ++ joinComma rest

/-- Positional parameter placeholders `$1 ... $n`.  Modelled from the
spec: the literal texts come from `get_fields_plain_numbered` in the
missing `props.rs`; §4.2 calls them positional parameters in declaration
order. -/
def numberedParams (n : Nat) : List String :=
  (List.range n).map (fun i => "$" ++ toString (i + 1))

/-- The INSERT statement text assembled by the generated `save`:
non-ignored non-primary columns in declaration order, positional
placeholders, and a RETURNING clause for the generated primary key. -/
def insertSql (p : Props) : String :=
  "INSERT INTO " ++ p.tableName ++ " (" ++ joinComma (fields_plain_names p) ++
    ") values(" ++ joinComma (numberedParams (fields_plain_names p).length) ++
    ") RETURNING " ++ primaryKeyName p ++ ";"

/-- The SET clause of the generated UPDATE: each plain column assigned its
positional placeholder, in declaration order. -/
def setClause (p : Props) : String :=
  joinComma (((fields_plain_names p).zip (numberedParams (fields_plain_names p).length)).map
    (fun c => c.1 ++ " = " ++ c.2))

/-- The UPDATE statement text assembled by the generated `save`: all
plain columns set from placeholders `$1..$n`, filtered by primary-key
equality against the final placeholder `$(n+1)`. -/
def updateSql (p : Props) : String :=
  "UPDATE " ++ p.tableName ++ " SET " ++ setClause p ++
    " WHERE " ++ primaryKeyName p ++ "= $" ++ toString ((fields_plain_names p).length + 1)

/-- The DELETE statement text assembled by the generated `delete`. -/
def deleteSql (p : Props) : String :=
  "DELETE FROM " ++ p.tableName ++ " WHERE " ++ primaryKeyName p ++ " = $1"

/-- The SELECT text of the generated `find`. -/
def findSql (p : Props) (condition : String) : String :=
  "SELECT * FROM " ++ p.tableName ++ " WHERE " ++ condition

/-- The SELECT text of the generated `first`: `find`'s with a row limit
of one appended. -/
def firstSql (p : Props) (condition : String) : String :=
  findSql p condition ++ " LIMIT 1"

/-- An in-memory record instance of an entity: the primary-key value,
the values of the plain (non-ignored, non-primary) fields in declaration
order, and the values of the ignored fields in declaration order. -/
structure Entity where
  pk : Int
  plain : List Int
  ignored : List Int
deriving DecidableEq, Repr

/-- The generated `save` (from `build_save_fn`).  The record's final
state is returned next to the `Result`, making the `&mut self` mutation
explicit.  If the primary key equals its type's default (`0`), an INSERT
over the plain fields is issued and the returned key is assigned onto
the record (`creating = true`); an INSERT yielding no row is the
synthesized `Error.Other`.  Otherwise an UPDATE is issued with the plain
values followed by the primary key, and `creating = false` regardless of
the affected-row count. -/
def save (p : Props) (db : DB) (self : Entity) : Entity × Except Error Bool :=
  if self.pk = 0 then
    match db.query (insertSql p) self.plain with
    | .error e => (self, .error e)
    | .ok rows =>
      match rows with
      | [] => (self, .error Error.Other)
      | r :: _ => ({ self with pk := rowGet r (primaryKeyName p) }, .ok true)
  else
    match db.execute (updateSql p) (self.plain ++ [self.pk]) with
    | .error e => (self, .error e)
    | .ok _ => (self, .ok false)

/-- The generated `delete` (from `build_delete_fn`).  A default-valued
primary key short-circuits to `false` with no statement; otherwise a
DELETE filtered by the key is issued, and a non-zero affected count
resets the key to `0` (the source resets with the literal `0`, which in
this integer model coincides with the type's default). -/
def delete (p : Props) (db : DB) (self : Entity) : Entity × Except Error Bool :=
  if self.pk = 0 then
    (self, .ok false)
  else
    match db.execute (deleteSql p) [self.pk] with
    | .error e => (self, .error e)
    | .ok 0 => (self, .ok false)
    | .ok _ => ({ self with pk := 0 }, .ok true)

/-- The generated `from_row` (from `build_from_row_fn`): each non-ignored
field is decoded from the row by its column name; ignored fields take
their type's default.  Modelled from the spec for the ignored fields:
the visible generator reads exactly the `fields_all` columns, and §4.2
states ignored fields take their default. -/
def from_row (p : Props) (row : Row) : Entity :=
  { pk := rowGet row (primaryKeyName p)
    plain := (fields_plain_names p).map (rowGet row)
    ignored := (p.fields.filter (fun f => f.isIgnored)).map (fun _ => 0) }

/-- The generated `find` (from `build_find_fn`): run the SELECT with the
caller's condition and parameters, decode every row via `from_row` in
order. -/
def find (p : Props) (db : DB) (condition : String) (params : List Int) :
    Except Error (List Entity) :=
  match db.query (findSql p condition) params with
  | .error e => .error e
  | .ok rows => .ok (rows.map (from_row p))

/-- The generated `first` (from `build_first_fn`): same query with
` LIMIT 1` appended; `none` when no row returns, else the first decoded
record. -/
def first (p : Props) (db : DB) (condition : String) (params : List Int) :
    Except Error (Option Entity) :=
  match db.query (firstSql p condition) params with
  | .error e => .error e
  | .ok rows =>
    match rows.map (from_row p) with
    | [] => .ok none
    | r :: _ => .ok (some r)

/-- Database type of a field: the custom override when present, else the
type inferred from the semantic type.  Modelled from the spec (§3, §4.2):
the inference table lives in the missing descriptor-extraction code. -/
def inferDbType : String → String
  | "i32" => "integer"
  | "i64" => "integer"
  | "String" => "text"
  | "bool" => "boolean"
  | t => t

/-- Database type selection for one field. -/
def dbTypeOf (f : Field) : String :=
  match f.customType with
  | some t => t
  | none => inferDbType f.ty

/-- A table-creation migration: table name plus ordered column
definitions (name and database type).  Modelled from the spec's data
model (§3): `migration.rs` (a wrapper over the barrel crate) is not
among the staged sources. -/
structure Migration where
  name : String
  columns : List (String × String)
deriving DecidableEq, Repr

/-- The generated `create_migration` (from `build_create_migration_fn`):
a table-creation migration with one column per non-ignored field in
declaration order, each mapped to its database type; the generated
function always returns `Ok`. -/
def create_migration (p : Props) : Except Error Migration :=
  .ok { name := p.tableName
        columns := (fields_all p).map (fun f => (f.name, dbTypeOf f)) }

/-- Compilation of a table-creation migration to dialect-specific SQL,
the model of `m.raw.make::<Pg>()`.  Modelled from the spec: the barrel
backend is an external collaborator; only the text's dependence on the
table name and ordered columns matters here. -/
def makePg (m : Migration) : String :=
  "CREATE TABLE " ++ m.name ++ " (" ++
    joinComma (m.columns.map (fun c => c.1 ++ " " ++ c.2)) ++ ");"

/-- A versioned migration unit as the runner consumes it, the model of
`refinery::Migration`: parsed version, parsed name and the SQL
content. -/
structure RefMigration where
  version : Nat
  name : String
  sql : String
deriving DecidableEq, Repr

/-- Word characters, the `\w` class of the migration-name pattern. -/
def isWordChar (c : Char) : Bool :=
  c.isAlphanum || c == '_'

/-- Construction of an unapplied migration unit, the model of
`refinery::Migration::unapplied` applied to the file name
`V{version}__{rawName}.rs` that `migrate_tables` formats.  Modelled from
refinery's documented migration-name format (an external collaborator):
the name part is the maximal run of word characters after the
double underscore, the construction fails when that run is empty, and
the trailing `.rs` never extends the run (`.` is not a word character).
The numeric round trip through the formatted string (format the version,
parse it back) is taken as exact, so the model operates directly on the
`(version, rawName)` pair. -/
def refMigrationUnapplied (version : Nat) (rawName : String) (sql : String) :
    Option RefMigration :=
  let nameChars := rawName.toList.takeWhile isWordChar
  if nameChars.isEmpty then none
  else some { version := version, name := String.mk nameChars, sql := sql }

/-- One entry of the persisted migration-history table: name, version
and the checksum of the applied content.  Modelled from the spec
(§4.5/§6): the history table is maintained by the external runner. -/
structure HistoryEntry where
  name : String
  version : Nat
  checksum : String
deriving DecidableEq, Repr

/-- Checksum of a migration unit's content, covering name, version and
SQL.  Modelled from the spec's "content checksum"; the concrete hash is
irrelevant, only equality of contents is compared. -/
def rchecksum (m : RefMigration) : String :=
  m.name ++ "#" ++ toString m.version ++ "#" ++ m.sql

/-- Does a history entry record this unit (same name and version)? -/
def matchesEntry (m : RefMigration) (h : HistoryEntry) : Bool :=
  h.name == m.name && h.version == m.version

/-- The history entry recorded for a unit, if any. -/
def recorded (history : List HistoryEntry) (m : RefMigration) : Option HistoryEntry :=
  history.find? (matchesEntry m)

/-- The report a migration run returns, enumerating applied, skipped and
diverged units.  Modelled from the spec (§4.5). -/
structure Report where
  applied : List RefMigration
  skipped : List RefMigration
  diverged : List RefMigration
deriving DecidableEq, Repr

/-- A configured runner, the model of `refinery::Runner`: the migration
units plus the abort-on-divergent flag (refinery's default for the flag
is `true`). -/
structure Runner where
  migrations : List RefMigration
  abortDivergent : Bool
deriving DecidableEq, Repr

/-- The statement-execution oracle for migration runs: for each unit,
either success or the genuine execution failure. -/
def MigExec : Type := RefMigration → Except Error Unit

/-- One pass of the runner's apply algorithm, accumulating the report.
Modelled from the spec (§4.5): skip a recorded unit whose checksum
matches; on a checksum mismatch abort when the flag demands it
(refinery's divergent-version error, wrapped as `RefineryError`) and
otherwise record the divergence and continue; apply and record a unit
not yet present, aborting on a genuine execution failure. -/
def runGo (exec : MigExec) (history : List HistoryEntry) (abortDiv : Bool) :
    List RefMigration → Report → Except Error Report
  | [], rep => .ok rep
  | m :: rest, rep =>
    match recorded history m with
    | some h =>
      if h.checksum == rchecksum m then
        runGo exec history abortDiv rest
          { rep with skipped := rep.skipped ++ [m] }
      else if abortDiv then
        .error (Error.RefineryError 0)
      else
        runGo exec history abortDiv rest
          { rep with diverged := rep.diverged ++ [m] }
    | none =>
      match exec m with
      | .error e => .error e
      | .ok _ =>
        runGo exec history abortDiv rest
          { rep with applied := rep.applied ++ [m] }

/-- A full run of the apply algorithm from the empty report. -/
def runMigrations (exec : MigExec) (history : List HistoryEntry) (abortDiv : Bool)
    (ms : List RefMigration) : Except Error Report :=
  runGo exec history abortDiv ms { applied := [], skipped := [], diverged := [] }

/-- The `DB::migrate` of `db.rs`: unconditionally disable
abort-on-divergence on the supplied runner, borrow a connection (the
`conn` oracle; a pool failure propagates), and run.  The runner's apply
loop itself is modelled from the spec, see `runGo`. -/
def migrate (conn : Except Error Unit) (exec : MigExec) (history : List HistoryEntry)
    (runner : Runner) : Except Error Report :=
  let runner := { runner with abortDivergent := false }
  match conn with
  | .error e => .error e
  | .ok _ => runMigrations exec history runner.abortDivergent runner.migrations

/-- Outcome of a computation that may panic, used to make the `unwrap`
in `migrate_tables` explicit. -/
inductive PanicOr (α : Type) where
  | panicked : PanicOr α
  | value : α → PanicOr α
deriving DecidableEq, Repr

/-- Did the computation complete without panicking? -/
def PanicOr.isValue {α : Type} : PanicOr α → Bool
  | .panicked => false
  | .value _ => true

/-- The unit `migrate_tables` builds for the migration at 0-based
position `i`: `refinery::Migration::unapplied` on the formatted name
`V{i}__{table name}.rs` and the compiled SQL. -/
def buildUnit (i : Nat) (m : Migration) : Option RefMigration :=
  refMigrationUnapplied i m.name (makePg m)

/-- The `DB::migrate_tables` of `db.rs`: number the input migrations by
position, format each unit's name from its position and table name,
compile its SQL for the Pg dialect and construct the unit — `unwrap`ing
the construction, so a failing construction panics —, then hand the
units to `migrate` through a freshly built runner (refinery's default
abort-on-divergent flag is `true`; `migrate` overrides it). -/
def migrate_tables (conn : Except Error Unit) (exec : MigExec)
    (history : List HistoryEntry) (ms : List Migration) :
    PanicOr (Except Error Report) :=
  let built := ms.enum.map (fun im => buildUnit im.1 im.2)
  if built.all Option.isSome then
    .value (migrate conn exec history
      { migrations := built.filterMap id, abortDivergent := true })
  else
    .panicked

/-- The always-successful connection oracle. -/
def connOk : Except Error Unit := .ok ()

/-- The always-successful statement-execution oracle. -/
def execOk : MigExec := fun _ => .ok ()

/-- Is a unit unrecorded in the history (about to be freshly applied)? -/
def isFresh (history : List HistoryEntry) (m : RefMigration) : Bool :=
  (recorded history m).isNone

/-- Is a unit recorded with a matching checksum (to be skipped)? -/
def isSkippedB (history : List HistoryEntry) (m : RefMigration) : Bool :=
  match recorded history m with
  | some h => h.checksum == rchecksum m
  | none => false

/-- Is a unit recorded with a differing checksum (diverged)? -/
def isDivergedB (history : List HistoryEntry) (m : RefMigration) : Bool :=
  match recorded history m with
  | some h => !(h.checksum == rchecksum m)
  | none => false

/-- Does a table name consist of word characters only, at least one? -/
def wordName (nm : String) : Bool :=
  nm.toList.all isWordChar && !nm.toList.isEmpty

/-- Lift of `wordName` to a migration spec. -/
def wordNameOfMig (m : Migration) : Bool :=
  wordName m.name

/-- The units `migrate_tables` produces for well-formed table names:
version equal to the 0-based position, name equal to the table name, SQL
compiled for the Pg dialect. -/
def builtUnits (ms : List Migration) : List RefMigration :=
  ms.enum.map (fun im => { version := im.1, name := im.2.name, sql := makePg im.2 })

/-- The query-executor oracle that fails every call with the one error
`e`, used to state that generated operations propagate executor failures
unchanged. -/
def errDB (e : Error) : DB :=
  { query := fun _ _ => .error e, execute := fun _ _ => .error e }

/-! ## Concrete instances used by witnesses -/

/-- A three-field example descriptor: primary key `id`, plain field
`name`, ignored field `secret`. -/
def exUserProps : Props :=
  { name := "User", tableName := "users"
    fields := [ { name := "id", ty := "i32", customType := none,
                  isPrimary := true, isIgnored := false },
                { name := "name", ty := "String", customType := none,
                  isPrimary := false, isIgnored := false },
                { name := "secret", ty := "i32", customType := none,
                  isPrimary := false, isIgnored := true } ] }

/-- A not-yet-persisted record of `exUserProps` (default primary key). -/
def entNew : Entity := { pk := 0, plain := [5], ignored := [9] }

/-- A persisted record of `exUserProps` (non-default primary key). -/
def entOld : Entity := { pk := 3, plain := [5], ignored := [9] }

/-- An oracle whose every query returns the single row `id = 7` and
whose every execute reports one affected row. -/
def dbRet7 : DB :=
  { query := fun _ _ => .ok [[("id", 7)]], execute := fun _ _ => .ok 1 }

/-- An oracle whose every query returns no rows and whose every execute
reports zero affected rows. -/
def dbNone : DB :=
  { query := fun _ _ => .ok [], execute := fun _ _ => .ok 0 }

/-! ## Claim theorems -/

/-- C1: for a record whose primary key equals its type's default, `save`
issues a single INSERT listing the non-ignored non-primary fields in
declaration order with a RETURNING clause for the primary key; a row
coming back has its key assigned onto the record with `created = true`,
and an empty result yields the synthesized data-integrity error
`Error.Other`. -/
theorem save_insert_branch (p : Props) (db1 db2 : DB) (self : Entity)
    (r : Row) (rest : List Row)
    (hpk : self.pk = 0)
    (h1 : db1.query (insertSql p) self.plain = .ok [])
    (h2 : db2.query (insertSql p) self.plain = .ok (r :: rest)) :
    insertSql p = "INSERT INTO " ++ p.tableName ++ " (" ++
        joinComma ((p.fields.filter (fun f => !f.isPrimary && !f.isIgnored)).map Field.name) ++
        ") values(" ++
        joinComma (numberedParams
          ((p.fields.filter (fun f => !f.isPrimary && !f.isIgnored)).map Field.name).length) ++
        ") RETURNING " ++ primaryKeyName p ++ ";" ∧
    save p db1 self = (self, .error Error.Other) ∧
    save p db2 self = ({ self with pk := rowGet r (primaryKeyName p) }, .ok true) := by
  refine ⟨rfl, ?_, ?_⟩ <;> simp [save, hpk, h1, h2]

/-- Witness for C1 at the example descriptor: the fresh record gets the
returned key `7` and `created = true`; the empty result is the
synthesized error. -/
theorem save_insert_branch_witness :
    insertSql exUserProps = "INSERT INTO users (name) values($1) RETURNING id;" ∧
    save exUserProps dbNone entNew = (entNew, .error Error.Other) ∧
    save exUserProps dbRet7 entNew = ({ entNew with pk := 7 }, .ok true) := by
  have h := save_insert_branch exUserProps dbNone dbRet7 entNew [("id", 7)] [] rfl rfl rfl
  exact ⟨by decide, h.2.1, h.2.2⟩

/-- C2: for a record whose primary key differs from its type's default,
`save` issues an UPDATE assigning every non-ignored non-primary field a
positional parameter in declaration order, filtered by primary-key
equality against the final positional parameter (the parameters bound
are the plain values followed by the key), and returns
`created = false` for every affected-row count. -/
theorem save_update_branch (p : Props) (db : DB) (self : Entity) (n : Nat)
    (hpk : self.pk ≠ 0)
    (hx : db.execute (updateSql p) (self.plain ++ [self.pk]) = .ok n) :
    updateSql p = "UPDATE " ++ p.tableName ++ " SET " ++
        joinComma ((((p.fields.filter (fun f => !f.isPrimary && !f.isIgnored)).map Field.name).zip
          (numberedParams
            ((p.fields.filter (fun f => !f.isPrimary && !f.isIgnored)).map Field.name).length)).map
          (fun c => c.1 ++ " = " ++ c.2)) ++
        " WHERE " ++ primaryKeyName p ++ "= $" ++
        toString
          (((p.fields.filter (fun f => !f.isPrimary && !f.isIgnored)).map Field.name).length + 1) ∧
    save p db self = (self, .ok false) := by
  refine ⟨rfl, ?_⟩
  simp [save, hpk, hx]

/-- Witness for C2 at the example descriptor, with an affected-row count
of one. -/
theorem save_update_branch_witness :
    updateSql exUserProps = "UPDATE users SET name = $1 WHERE id= $2" ∧
    save exUserProps dbRet7 entOld = (entOld, .ok false) := by
  have h := save_update_branch exUserProps dbRet7 entOld 1 (by decide) rfl
  exact ⟨by decide, h.2⟩

/-- C3: `delete` on a default-keyed record issues no statement (the
result is the same under any oracle) and returns `false`; on a
persisted record it issues a DELETE filtered by the key, returns `false`
without mutation when zero rows were affected, and otherwise resets the
key to the default and returns `true` — after which a repeated `delete`
returns `false`. -/
theorem delete_semantics (p : Props) (dbA dbz : DB) (self0 selfP : Entity) (n : Nat)
    (h0 : self0.pk = 0)
    (hP : selfP.pk ≠ 0)
    (hz : dbz.execute (deleteSql p) [selfP.pk] = .ok 0)
    (hn : dbA.execute (deleteSql p) [selfP.pk] = .ok (n + 1)) :
    deleteSql p = "DELETE FROM " ++ p.tableName ++ " WHERE " ++ primaryKeyName p ++ " = $1" ∧
    delete p dbA self0 = (self0, .ok false) ∧
    delete p dbz self0 = (self0, .ok false) ∧
    delete p dbz selfP = (selfP, .ok false) ∧
    delete p dbA selfP = ({ selfP with pk := 0 }, .ok true) ∧
    delete p dbA { selfP with pk := 0 } = ({ selfP with pk := 0 }, .ok false) := by
  refine ⟨rfl, ?_, ?_, ?_, ?_, ?_⟩ <;>
    simp [delete, h0, hP, hz, hn]

/-- Witness for C3 at the example descriptor: no-op on the fresh record,
`false` on a zero-row DELETE, `true` exactly once on the persisted
record, `false` on the repeat. -/
theorem delete_semantics_witness :
    deleteSql exUserProps = "DELETE FROM users WHERE id = $1" ∧
    delete exUserProps dbRet7 entNew = (entNew, .ok false) ∧
    delete exUserProps dbNone entNew = (entNew, .ok false) ∧
    delete exUserProps dbNone entOld = (entOld, .ok false) ∧
    delete exUserProps dbRet7 entOld = ({ entOld with pk := 0 }, .ok true) ∧
    delete exUserProps dbRet7 { entOld with pk := 0 } = ({ entOld with pk := 0 }, .ok false) := by
  exact delete_semantics exUserProps dbRet7 dbNone entNew entOld 0 rfl (by decide) rfl rfl

/-- C4: `from_row` decodes exactly the non-ignored fields from the row
by column name (the primary key and the plain fields in declaration
order), while every ignored field takes its type's default and is
independent of the row's contents. -/
theorem from_row_decodes_non_ignored (p : Props) (row row' : Row) :
    from_row p row =
      { pk := rowGet row (primaryKeyName p)
        plain := ((p.fields.filter (fun f => !f.isPrimary && !f.isIgnored)).map Field.name).map
          (rowGet row)
        ignored := (p.fields.filter (fun f => f.isIgnored)).map (fun _ => 0) } ∧
    (from_row p row).ignored = (from_row p row').ignored := by
  exact ⟨rfl, rfl⟩

/-- C5: `create_migration` yields a table-creation migration whose
columns are exactly the non-ignored fields in declaration order, each
mapped to its database type (inferred from the semantic type unless
overridden); at the example descriptor the ignored field contributes no
column. -/
theorem create_migration_columns (p : Props) :
    create_migration p =
      .ok { name := p.tableName
            columns := (p.fields.filter (fun f => !f.isIgnored)).map
              (fun f => (f.name, dbTypeOf f)) } ∧
    create_migration exUserProps =
      .ok { name := "users", columns := [("id", "integer"), ("name", "text")] } := by
  exact ⟨rfl, rfl⟩

/-- C8: a failure raised by the executor during a generated operation
propagates to the caller unchanged — under the oracle failing every call
with `e`, `save`, `delete`, `find` and `first` all return exactly `e` —
while the only generator-synthesized error is `Error.Other` for an
INSERT returning no row. -/
theorem generated_ops_propagate_errors (p : Props) (self selfP self0 : Entity)
    (cond : String) (params : List Int) (e : Error) (dbN : DB)
    (hP : selfP.pk ≠ 0) (h0 : self0.pk = 0)
    (hN : dbN.query (insertSql p) self0.plain = .ok []) :
    save p (errDB e) self = (self, .error e) ∧
    delete p (errDB e) selfP = (selfP, .error e) ∧
    find p (errDB e) cond params = .error e ∧
    first p (errDB e) cond params = .error e ∧
    save p dbN self0 = (self0, .error Error.Other) := by
  refine ⟨?_, ?_, ?_, ?_, ?_⟩
  · by_cases h : self.pk = 0 <;> simp [save, errDB, h]
  · simp [delete, errDB, hP]
  · simp [find, errDB]
  · simp [first, errDB]
  · simp [save, h0, hN]

/-- Witness for C8 at the example descriptor with a concrete driver
error. -/
theorem generated_ops_propagate_errors_witness :
    save exUserProps (errDB (Error.PostgresError 42)) entOld =
      (entOld, .error (Error.PostgresError 42)) ∧
    delete exUserProps (errDB (Error.PostgresError 42)) entOld =
      (entOld, .error (Error.PostgresError 42)) ∧
    find exUserProps (errDB (Error.PostgresError 42)) "id = $1" [3] =
      .error (Error.PostgresError 42) ∧
    first exUserProps (errDB (Error.PostgresError 42)) "id = $1" [3] =
      .error (Error.PostgresError 42) ∧
    save exUserProps dbNone entNew = (entNew, .error Error.Other) := by
  have h := generated_ops_propagate_errors exUserProps entOld entOld entNew
    "id = $1" [3] (Error.PostgresError 42) dbNone (by decide) rfl rfl
  exact h

/-- C9: the generated `save` and `delete` never mutate any field but the
primary key — `save`'s update branch and every error return leave the
record unchanged, a successful insert changes only the key, a zero-row
or error `delete` leaves the record unchanged, and a successful `delete`
changes only the key (to the default). -/
theorem save_delete_frame (p : Props) (dbU dbI dbN dbz dbA : DB) (e : Error)
    (selfP self0 : Entity) (n m : Nat) (r : Row) (rest : List Row)
    (hP : selfP.pk ≠ 0) (h0 : self0.pk = 0)
    (hU : dbU.execute (updateSql p) (selfP.plain ++ [selfP.pk]) = .ok n)
    (hI : dbI.query (insertSql p) self0.plain = .ok (r :: rest))
    (hN : dbN.query (insertSql p) self0.plain = .ok [])
    (hz : dbz.execute (deleteSql p) [selfP.pk] = .ok 0)
    (hA : dbA.execute (deleteSql p) [selfP.pk] = .ok (m + 1)) :
    save p dbU selfP = (selfP, .ok false) ∧
    save p (errDB e) selfP = (selfP, .error e) ∧
    save p (errDB e) self0 = (self0, .error e) ∧
    save p dbN self0 = (self0, .error Error.Other) ∧
    (save p dbI self0).1.plain = self0.plain ∧
    (save p dbI self0).1.ignored = self0.ignored ∧
    delete p dbz selfP = (selfP, .ok false) ∧
    delete p (errDB e) selfP = (selfP, .error e) ∧
    delete p (errDB e) self0 = (self0, .ok false) ∧
    delete p dbA selfP = ({ selfP with pk := 0 }, .ok true) ∧
    ({ selfP with pk := 0 } : Entity).plain = selfP.plain ∧
    ({ selfP with pk := 0 } : Entity).ignored = selfP.ignored := by
  refine ⟨?_, ?_, ?_, ?_, ?_, ?_, ?_, ?_, ?_, ?_, rfl, rfl⟩ <;>
    simp [save, delete, errDB, hP, h0, hU, hI, hN, hz, hA]

/-- Witness for C9 at the example descriptor. -/
theorem save_delete_frame_witness :
    save exUserProps dbRet7 entOld = (entOld, .ok false) ∧
    save exUserProps (errDB Error.Other) entOld = (entOld, .error Error.Other) ∧
    save exUserProps (errDB Error.Other) entNew = (entNew, .error Error.Other) ∧
    save exUserProps dbNone entNew = (entNew, .error Error.Other) ∧
    (save exUserProps dbRet7 entNew).1.plain = entNew.plain ∧
    (save exUserProps dbRet7 entNew).1.ignored = entNew.ignored ∧
    delete exUserProps dbNone entOld = (entOld, .ok false) ∧
    delete exUserProps (errDB Error.Other) entOld = (entOld, .error Error.Other) ∧
    delete exUserProps (errDB Error.Other) entNew = (entNew, .ok false) ∧
    delete exUserProps dbRet7 entOld = ({ entOld with pk := 0 }, .ok true) ∧
    ({ entOld with pk := 0 } : Entity).plain = entOld.plain ∧
    ({ entOld with pk := 0 } : Entity).ignored = entOld.ignored := by
  exact save_delete_frame exUserProps dbRet7 dbRet7 dbNone dbNone dbRet7 Error.Other
    entOld entNew 1 0 [("id", 7)] [] (by decide) rfl rfl rfl rfl rfl rfl

/-! ## Migration-runner lemmas -/

/-- Constructing a unit from a table name made of word characters keeps
the name whole. -/
theorem refMigrationUnapplied_word (i : Nat) (nm : String) (sql : String)
    (h : wordName nm = true) :
    refMigrationUnapplied i nm sql = some { version := i, name := nm, sql := sql } := by
  unfold wordName at h
  simp only [Bool.and_eq_true, Bool.not_eq_true', List.isEmpty_eq_false] at h
  obtain ⟨hall, hne⟩ := h
  have htw : nm.toList.takeWhile isWordChar = nm.toList := by
    rw [List.takeWhile_eq_self_iff]
    intro x hx
    exact List.all_eq_true.mp hall x hx
  unfold refMigrationUnapplied
  rw [htw]
  have hmk : String.mk nm.toList = nm := rfl
  have hie : (nm.toList).isEmpty = false := by
    simpa [List.isEmpty_eq_false] using hne
  simp [hie, hmk]
  exact hne

/-- For a list of migrations whose table names are word-character
strings, every positionally numbered unit constructs, and it carries the
position as version, the table name and the compiled SQL. -/
theorem buildUnits_enumFrom (ms : List Migration) (h : ms.all wordNameOfMig = true) :
    ∀ k : Nat, (ms.enumFrom k).map (fun im => buildUnit im.1 im.2) =
      ((ms.enumFrom k).map
        (fun im => ({ version := im.1, name := im.2.name, sql := makePg im.2 } : RefMigration))).map
        some := by
  induction ms with
  | nil => intro k; rfl
  | cons m rest ih =>
    intro k
    simp only [List.all_cons, Bool.and_eq_true] at h
    have hm : buildUnit k m = some { version := k, name := m.name, sql := makePg m } :=
      refMigrationUnapplied_word k m.name (makePg m) h.1
    simp [List.enumFrom, hm, ih h.2 (k + 1)]

/-- The unit list `migrate_tables` builds, for word-character table
names, is `builtUnits` wrapped in `some`. -/
theorem built_eq_builtUnits (ms : List Migration) (h : ms.all wordNameOfMig = true) :
    ms.enum.map (fun im => buildUnit im.1 im.2) = (builtUnits ms).map some := by
  exact buildUnits_enumFrom ms h 0

/-- With the abort flag cleared and an executor that never fails, the
apply loop never aborts: it classifies every unit into the report as
freshly applied, skipped, or diverged, in order. -/
theorem runGo_noAbort (history : List HistoryEntry) (l : List RefMigration) :
    ∀ a s d : List RefMigration,
      runGo execOk history false l { applied := a, skipped := s, diverged := d } =
        .ok { applied := a ++ l.filter (isFresh history)
              skipped := s ++ l.filter (isSkippedB history)
              diverged := d ++ l.filter (isDivergedB history) } := by
  induction l with
  | nil => intro a s d; simp [runGo]
  | cons m rest ih =>
    intro a s d
    cases hr : recorded history m with
    | none =>
      have hf : isFresh history m = true := by simp [isFresh, hr]
      have hs : isSkippedB history m = false := by simp [isSkippedB, hr]
      have hd : isDivergedB history m = false := by simp [isDivergedB, hr]
      simp [runGo, hr, execOk, ih, hf, hs, hd, List.filter_cons]
    | some h =>
      by_cases hc : h.checksum == rchecksum m
      · have hf : isFresh history m = false := by simp [isFresh, hr]
        have hs : isSkippedB history m = true := by simp [isSkippedB, hr, hc]
        have hd : isDivergedB history m = false := by simp [isDivergedB, hr, hc]
        simp [runGo, hr, hc, ih, hf, hs, hd, List.filter_cons]
      · have hf : isFresh history m = false := by simp [isFresh, hr]
        have hs : isSkippedB history m = false := by
          simp [isSkippedB, hr]; simpa using hc
        have hd : isDivergedB history m = true := by
          simp [isDivergedB, hr]; simpa using hc
        simp [runGo, hr, hc, ih, hf, hs, hd, List.filter_cons]

/-! ## Migration claim theorems -/

/-- C6 counterexample: a table name containing a character outside the
migration-name word class is silently truncated — the unit built for
table `a b` carries the name `a`, not the table name — so the claim's
"name equal to its table name" fails as stated. -/
def migSpace : Migration := { name := "a b", columns := [] }

/-- C6 counterexample theorem: at the concrete input `[migSpace]` the
run applies a unit whose recorded name differs from the table name. -/
theorem migrate_tables_name_mismatch :
    migrate_tables connOk execOk [] [migSpace] =
      .value (.ok { applied := [{ version := 0, name := "a", sql := makePg migSpace }]
                    skipped := [], diverged := [] }) ∧
    (("a" : String) == "a b") = false := by
  exact ⟨rfl, rfl⟩

/-- C6 (amended): for input lists whose table names are nonempty
word-character strings, `migrate_tables` numbers each unit by its
0-based position, names it by its table name, compiles it for the Pg
dialect, and runs the list in that (version) order; under any history a
run with a never-failing connection and executor returns a report, never
an error — recorded-and-matching units are skipped, diverged units are
reported as diverged while the remaining units still apply. -/
theorem migrate_tables_ordered_divergence_tolerant
    (conn : Except Error Unit) (exec : MigExec) (history : List HistoryEntry)
    (ms : List Migration)
    (hn : ms.all wordNameOfMig = true) (hc : conn = connOk) (hx : exec = execOk) :
    (builtUnits ms).map RefMigration.version = List.range ms.length ∧
    (builtUnits ms).map RefMigration.name = ms.map Migration.name ∧
    (builtUnits ms).map RefMigration.sql = ms.map makePg ∧
    migrate_tables conn exec history ms =
      .value (.ok { applied := (builtUnits ms).filter (isFresh history)
                    skipped := (builtUnits ms).filter (isSkippedB history)
                    diverged := (builtUnits ms).filter (isDivergedB history) }) := by
  subst hc hx
  have hversion : ∀ (l : List Migration) (k : Nat),
      ((l.enumFrom k).map (fun im =>
        ({ version := im.1, name := im.2.name, sql := makePg im.2 } : RefMigration))).map
        RefMigration.version = List.range' k l.length := by
    intro l
    induction l with
    | nil => intro k; rfl
    | cons m rest ih => intro k; simp [List.enumFrom, List.range', ih (k + 1)]
  have hname : ∀ (l : List Migration) (k : Nat),
      ((l.enumFrom k).map (fun im =>
        ({ version := im.1, name := im.2.name, sql := makePg im.2 } : RefMigration))).map
        RefMigration.name = l.map Migration.name := by
    intro l
    induction l with
    | nil => intro k; rfl
    | cons m rest ih => intro k; simp [List.enumFrom, ih (k + 1)]
  have hsql : ∀ (l : List Migration) (k : Nat),
      ((l.enumFrom k).map (fun im =>
        ({ version := im.1, name := im.2.name, sql := makePg im.2 } : RefMigration))).map
        RefMigration.sql = l.map makePg := by
    intro l
    induction l with
    | nil => intro k; rfl
    | cons m rest ih => intro k; simp [List.enumFrom, ih (k + 1)]
  refine ⟨?_, ?_, ?_, ?_⟩
  · have := hversion ms 0
    simpa [builtUnits, List.enum, List.range_eq_range'] using this
  · exact hname ms 0
  · exact hsql ms 0
  · unfold migrate_tables
    rw [built_eq_builtUnits ms hn]
    have hall : ((builtUnits ms).map some).all Option.isSome = true := by
      simp [List.all_map, Function.comp]
    rw [if_pos hall]
    have hfm : ((builtUnits ms).map some).filterMap id = builtUnits ms := by
      simp [List.filterMap_map]
    rw [hfm]
    unfold migrate connOk
    simp only
    unfold runMigrations
    rw [runGo_noAbort history (builtUnits ms) [] [] []]
    simp

/-- Witness for C6: two well-named migrations, the first recorded with a
stale checksum — the run reports the first as diverged and still applies
the second, with versions `0, 1` and names equal to the table names. -/
def migW : List Migration :=
  [ { name := "users", columns := [("id", "integer"), ("name", "text")] },
    { name := "posts", columns := [("id", "integer")] } ]

/-- History recording `users` at version 0 with a checksum that no
longer matches its current content. -/
def histW : List HistoryEntry := [{ name := "users", version := 0, checksum := "stale" }]

/-- Witness theorem for C6 at `migW`/`histW`. -/
theorem migrate_tables_ordered_divergence_tolerant_witness :
    (builtUnits migW).map RefMigration.version = List.range migW.length ∧
    (builtUnits migW).map RefMigration.name = migW.map Migration.name ∧
    (builtUnits migW).map RefMigration.sql = migW.map makePg ∧
    migrate_tables connOk execOk histW migW =
      .value (.ok { applied := (builtUnits migW).filter (isFresh histW)
                    skipped := (builtUnits migW).filter (isSkippedB histW)
                    diverged := (builtUnits migW).filter (isDivergedB histW) }) := by
  exact migrate_tables_ordered_divergence_tolerant connOk execOk histW migW rfl rfl rfl

/-- C7 counterexample input: a migration whose table name is empty, so
the generated file name `V0__.rs` has no word character after the
double underscore and the unit cannot be constructed. -/
def migEmptyName : Migration := { name := "", columns := [] }

/-- C7 counterexample theorem: at that input `migrate_tables` panics
(the `unwrap` in `db.rs` fires) instead of returning an error. -/
theorem migrate_tables_unwrap_panics :
    migrate_tables connOk execOk [] [migEmptyName] = PanicOr.panicked ∧
    (migrate_tables connOk execOk [] [migEmptyName]).isValue = false := by
  exact ⟨rfl, rfl⟩

/-- C7 (amended): data-access and migration operations return explicit
results, but `migrate_tables` panics — rather than returning an error —
when a migration unit cannot be constructed from its generated name;
whenever every table name is a nonempty word-character string the
construction succeeds and `migrate_tables` returns a result without
panicking. -/
theorem migrate_tables_no_panic_on_valid_names (conn : Except Error Unit) (exec : MigExec)
    (history : List HistoryEntry) (ms : List Migration)
    (hn : ms.all wordNameOfMig = true) :
    (migrate_tables conn exec history ms).isValue = true := by
  unfold migrate_tables
  rw [built_eq_builtUnits ms hn]
  have hall : ((builtUnits ms).map some).all Option.isSome = true := by
    simp [List.all_map, Function.comp]
  rw [if_pos hall]
  rfl

/-- Witness for C7's amended statement at a well-named input list. -/
theorem migrate_tables_no_panic_on_valid_names_witness :
    (migrate_tables connOk execOk histW migW).isValue = true := by
  exact migrate_tables_no_panic_on_valid_names connOk execOk histW migW rfl

/-- C10: `migrate` disables abort-on-divergence before running — the
result for a caller-supplied runner is the same whatever its configured
flag — and, with a successful connection and a never-failing executor,
it returns a report for every history, so no call through `migrate`
errors solely because of checksum divergence. -/
theorem migrate_disables_abort_divergent (conn : Except Error Unit) (exec : MigExec)
    (history : List HistoryEntry) (ms : List RefMigration) (b : Bool)
    (hc : conn = connOk) (hx : exec = execOk) :
    migrate conn exec history { migrations := ms, abortDivergent := b } =
      migrate conn exec history { migrations := ms, abortDivergent := false } ∧
    migrate conn exec history { migrations := ms, abortDivergent := b } =
      .ok { applied := ms.filter (isFresh history)
            skipped := ms.filter (isSkippedB history)
            diverged := ms.filter (isDivergedB history) } := by
  subst hc hx
  refine ⟨rfl, ?_⟩
  unfold migrate connOk
  simp only
  unfold runMigrations
  rw [runGo_noAbort history ms [] [] []]
  simp

/-- A unit whose recorded checksum is stale, used to witness C10. -/
def unitT : RefMigration := { version := 0, name := "t", sql := "CREATE TABLE t ();" }

/-- History diverging on `unitT`. -/
def histT : List HistoryEntry := [{ name := "t", version := 0, checksum := "old" }]

/-- Witness for C10: a runner externally configured to abort on
divergence, run against a diverging history, still returns a report
(with the unit recorded as diverged), identical to the non-aborting
configuration. -/
theorem migrate_disables_abort_divergent_witness :
    migrate connOk execOk histT { migrations := [unitT], abortDivergent := true } =
      migrate connOk execOk histT { migrations := [unitT], abortDivergent := false } ∧
    migrate connOk execOk histT { migrations := [unitT], abortDivergent := true } =
      .ok { applied := [unitT].filter (isFresh histT)
            skipped := [unitT].filter (isSkippedB histT)
            diverged := [unitT].filter (isDivergedB histT) } := by
  exact migrate_disables_abort_divergent connOk execOk histT [unitT] true rfl rfl

end Oxidizer
